import Mathlib

/-!
Verification of the goscript execution-harness engine.

The Go source (package `goscript`) is shallowly embedded here.  Go strings
are modelled as `List Char` (`GoStr`); the Go standard-library string
operations the package uses (`strings.Split` with a one-character
separator, `strings.TrimSpace`, `strings.HasPrefix`, `strings.Contains`,
`strings.Join`, `strconv.Atoi`, `strconv.Itoa`, `bufio.Scanner` line
scanning) are given executable definitions with the same semantics on the
inputs the package feeds them.  The effectful parts of the package
(`New`, `Execute`, `Close`) are embedded as pure functions over an
explicit environment that fixes the outcome of each external effect, and
they additionally return the trace of external actions they perform.
-/

/-- Go strings, modelled as lists of characters. -/
abbrev GoStr := List Char

/-- Go `strings.Split(s, sep)` for a one-character separator `sep`
(every separator used by the package is one character). -/
def splitChar (sep : Char) : GoStr → List GoStr
  | [] => [[]]
  | c :: rest =>
    if c = sep then [] :: splitChar sep rest
    else
      match splitChar sep rest with
      | [] => [[c]]
      | r :: rs => (c :: r) :: rs

/-- Whitespace in the sense of Go's `unicode.IsSpace` (the Latin-1 range;
the package only ever trims source text and diagnostics). -/
def isGoSpace (c : Char) : Bool :=
  c = ' ' || c = '\t' || c = '\n' || c = '\x0b' || c = '\x0c' || c = '\r'
    || c = '\x85' || c = '\xa0'

/-- Go `strings.TrimSpace`. -/
def trimSpace (s : GoStr) : GoStr :=
  ((s.dropWhile isGoSpace).reverse.dropWhile isGoSpace).reverse

/-- Go `strings.Contains(s, substr)`. -/
def containsStr (needle : GoStr) : GoStr → Bool
  | [] => needle.isEmpty
  | c :: rest => needle.isPrefixOf (c :: rest) || containsStr needle rest

/-- Go `strings.Join(parts, sep)`. -/
def joinStr (sep : GoStr) : List GoStr → GoStr
  | [] => []
  | [x] => x
  | x :: rest => x ++ sep ++ joinStr sep rest

/-- Decimal value of an ASCII digit. -/
def digVal (c : Char) : Option Nat :=
  if '0' ≤ c ∧ c ≤ '9' then some (c.toNat - '0'.toNat) else none

/-- Accumulate the decimal digits of a string; `none` on any non-digit. -/
def parseNatAux : GoStr → Nat → Option Nat
  | [], acc => some acc
  | c :: rest, acc =>
    match digVal c with
    | some d => parseNatAux rest (acc * 10 + d)
    | none => none

/-- Go `strconv.Atoi`: an optional sign followed by at least one digit.
(Atoi's 64-bit overflow error is not modelled; the package only parses
line numbers of short diagnostics.) -/
def goAtoi : GoStr → Option Int
  | [] => none
  | '+' :: rest =>
    if rest = [] then none else (parseNatAux rest 0).map Int.ofNat
  | '-' :: rest =>
    if rest = [] then none else (parseNatAux rest 0).map (fun n => -(n : Int))
  | s => (parseNatAux s 0).map Int.ofNat

/-- Go `strconv.Itoa` (on a Go `int`, here `Int`). -/
def goItoa (i : Int) : GoStr :=
  (toString i).data

/-- Strip one trailing carriage return, as `bufio.ScanLines` does. -/
def dropCR (l : GoStr) : GoStr :=
  if l.getLast? = some '\r' then l.dropLast else l

/-- The token stream of a `bufio.Scanner` with the default `ScanLines`
split function: split on newlines, drop one trailing `\r` per line, and
produce no final empty token for input ending in a newline (in
particular, empty input yields no tokens). -/
def goScanLines (s : GoStr) : List GoStr :=
  let parts := splitChar '\n' s
  let parts := if parts.getLast? = some [] then parts.dropLast else parts
  parts.map dropCR

/-- One entry-point parameter, as extracted by the package
(`type arg struct { Index int; Name string; Typ string }`). -/
structure arg where
  Index : Int
  Name : GoStr
  Typ : GoStr
deriving DecidableEq, Repr

/-- The method `arg.Variadic`: the declared type begins with the `...` marker. -/
def arg.Variadic (a : arg) : Bool :=
  "...".data.isPrefixOf a.Typ

/-- The method `arg.Argname`. -/
def arg.Argname (a : arg) : GoStr :=
  if a.Variadic then a.Name ++ "...".data else a.Name

/-- The method `arg.Typename`: `[]` followed by the marker-stripped type for a
variadic parameter, the declared type otherwise. -/
def arg.Typename (a : arg) : GoStr :=
  if a.Variadic then "[]".data ++ a.Typ.drop 3 else a.Typ

/-- The method `arg.TypenameSingular`: the marker-stripped element type. -/
def arg.TypenameSingular (a : arg) : GoStr :=
  if a.Variadic then a.Typ.drop 3 else a.Typ

/-- The declared type of one comma-segment: split the trimmed segment on
single spaces; the type is the second field when there is one. -/
def segTyp (seg : GoStr) : GoStr :=
  let ss := splitChar ' ' (trimSpace seg)
  if 1 < ss.length then ss.getD 1 [] else []

/-- The declared name of one comma-segment (its first space-field). -/
def segName (seg : GoStr) : GoStr :=
  (splitChar ' ' (trimSpace seg)).getD 0 []

/-- The type back-fill of `extractArguments`: walking back from the end
of the already-built descriptors, give each descriptor whose type is
still empty the type `t`, stopping at the first descriptor that already
has a type (the maximal all-untyped suffix receives `t`). -/
def backfill (t : GoStr) : List arg → List arg
  | [] => []
  | a :: rest =>
    if a.Typ = [] ∧ rest.all (fun x => x.Typ = []) then
      { a with Typ := t } :: backfill t rest
    else
      a :: backfill t rest

/-- The loop body of `extractArguments`: descriptor `i` takes the
segment's name and (when present) type; a present type is back-filled
into the immediately preceding untyped run. -/
def extractLoop : Int → List GoStr → List arg → List arg
  | _, [], acc => acc
  | i, seg :: rest, acc =>
    let ss := splitChar ' ' (trimSpace seg)
    let name := ss.getD 0 []
    let typ := if 1 < ss.length then ss.getD 1 [] else []
    let acc := if 1 < ss.length then backfill typ acc else acc
    extractLoop (i + 1) rest (acc ++ [⟨i, name, typ⟩])

/-- The extractor `extractArguments`: take the text between the first `(` and the next
`)`, split it on commas, and build one descriptor per segment, with
Go-style type grouping resolved by back-fill.  (`segs[0] == ""` returns
no descriptors, as in the source.  The source indexes `segs[1]`
unconditionally — a panic on input without a parenthesis, which no
caller passes; the embedding totalizes that access with a default.) -/
def extractArguments (code : GoStr) : List arg :=
  let seg1 := (splitChar '(' code).getD 1 []
  let seg0 := (splitChar ')' seg1).getD 0 []
  let segs := splitChar ',' seg0
  if segs.getD 0 [] = [] then []
  else extractLoop 0 segs []

example :
    extractArguments "func goscript(one, two, three string, age int) (x, error)".data =
      [⟨0, "one".data, "string".data⟩, ⟨1, "two".data, "string".data⟩,
       ⟨2, "three".data, "string".data⟩, ⟨3, "age".data, "int".data⟩] := by
  decide

example :
    extractArguments "func goscript(items ...string)".data =
      [⟨0, "items".data, "...string".data⟩] := by
  decide

example : extractArguments "func goscript() (x, error)".data = [] := by
  decide

/-- The embedded harness template `scriptHarnessCode`, verbatim from the
source (braces written as escapes). -/
def scriptHarnessCode : String :=
  "// Code generated by goscript; DO NOT EDIT\n" ++
  "// github.com/matryer/goscript\n" ++
  "\n" ++
  "package main\n" ++
  "\n" ++
  "import (\n" ++
  "\t\"encoding/gob\"\n" ++
  "\t\"os\"\n" ++
  "\t\"log\"\n" ++
  ")\n" ++
  "\n" ++
  "// <goscript>\n" ++
  "\x7b\x7b .Goscript \x7d\x7d\n" ++
  "// </goscript>\n" ++
  "\n" ++
  "func main() \x7b\n" ++
  "\tr := gob.NewDecoder(os.Stdin)\n" ++
  "\tw := gob.NewEncoder(os.Stdout)\n" ++
  "\tif err := w.Encode(\"ready\"); err != nil \x7b\n" ++
  "\t\tlog.Fatalln(err)\n" ++
  "\t\x7d\n" ++
  "\tfor \x7b\n" ++
  "\t\tvar args []interface\x7b\x7d\n" ++
  "\t\tif err := r.Decode(&args); err != nil \x7b\n" ++
  "\t\t\tlog.Fatalln(err)\n" ++
  "\t\t\x7d\n" ++
  "\t\t\x7b\x7b- range .InArgs \x7d\x7d\n" ++
  "\t\t\x7b\x7b- if .Variadic \x7d\x7d\n" ++
  "\t\t\x7b\x7b .Name \x7d\x7d := make(\x7b\x7b .Typename \x7d\x7d, len(args)-\x7b\x7b .Index \x7d\x7d)\n" ++
  "\t\tfor i := \x7b\x7b .Index \x7d\x7d; i < len(args); i++ \x7b\n" ++
  "\t\t\t\x7b\x7b .Name \x7d\x7d[i-\x7b\x7b .Index \x7d\x7d] = args[i].(\x7b\x7b .TypenameSingular \x7d\x7d)\n" ++
  "\t\t\x7d\n" ++
  "\t\t\x7b\x7b- else \x7d\x7d\n" ++
  "\t\t\x7b\x7b .Name \x7d\x7d := args[\x7b\x7b .Index \x7d\x7d].(\x7b\x7b .Typename \x7d\x7d)\n" ++
  "\t\t\x7b\x7b- end \x7d\x7d\n" ++
  "\t\t\x7b\x7b- end \x7d\x7d\n" ++
  "\t\tvar res response\n" ++
  "\t\tres.Value, res.Error = goscript(\x7b\x7b .ArgsList \x7d\x7d)\n" ++
  "\t\tif err := w.Encode(res); err != nil \x7b\n" ++
  "\t\t\tlog.Fatalln(err)\n" ++
  "\t\t\x7d\n" ++
  "\t\x7d\n" ++
  "\x7d\n" ++
  "\n" ++
  "type response struct \x7b\n" ++
  "\tValue interface\x7b\x7d\n" ++
  "\tError error\n" ++
  "\x7d\n"

/-- The substitution-point line of the template. -/
def goscriptSubstMarker : GoStr :=
  "\x7b\x7b .Goscript \x7d\x7d".data

/-- The scan in the package's `init`: a line counter starting at 1 that
stops at the substitution-point line. -/
def findSubstLine : Int → List GoStr → Int
  | line, [] => line
  | line, l :: rest =>
    if l = goscriptSubstMarker then line else findSubstLine (line + 1) rest

/-- The offset `scriptStartLine`, computed from the template exactly as the
package's `init` does. -/
def scriptStartLine : Int :=
  findSubstLine 1 (goScanLines scriptHarnessCode.data) - 1

example : scriptStartLine = 12 := by decide

/-- The scanning loop of `processScript`: count lines, and return the
count and the extracted descriptors at the first line whose trimmed text
starts with `func goscript(`. -/
def processScriptLoop : Int → List GoStr → Except GoStr (Int × List arg)
  | _, [] => .error "missing func goscript".data
  | n, line :: rest =>
    let n := n + 1
    let trimline := trimSpace line
    if "func goscript(".data.isPrefixOf trimline then
      .ok (n, extractArguments trimline)
    else
      processScriptLoop n rest

/-- The scan `processScript`: the 1-based line number of the entry-point
declaration and its extracted descriptors, or the missing-entry-point
error. -/
def processScript (script : GoStr) : Except GoStr (Int × List arg) :=
  processScriptLoop 0 (goScanLines script)

/-- The per-line transformation of `processOutput`: drop the
`# command-line-arguments` marker; on a line containing `goscript.go:`,
split on colons, replace the first segment by `goscript`, and when the
second segment parses as a number `n`, drop the whole line if
`n - scriptStartLine` exceeds the `scriptLines` parameter and otherwise
replace the segment by `n - scriptStartLine`; rejoin with colons. -/
def remapLine (scriptLines : Int) (line : GoStr) : Option GoStr :=
  if trimSpace line = "# command-line-arguments".data then none
  else if containsStr "goscript.go:".data line then
    let segs := (splitChar ':' line).set 0 "goscript".data
    match goAtoi (segs.getD 1 []) with
    | some n =>
      if n - scriptStartLine > scriptLines then none
      else some (joinStr ":".data (segs.set 1 (goItoa (n - scriptStartLine))))
    | none => some (joinStr ":".data segs)
  else some line

/-- The remapper `processOutput`: scan the diagnostic text line by line, apply the
per-line transformation, and rejoin the surviving lines with newlines. -/
def processOutput (scriptLines : Int) (out : GoStr) : GoStr :=
  joinStr "\n".data ((goScanLines out).filterMap (remapLine scriptLines))

example :
    processOutput 3 "# command-line-arguments\n./goscript.go:14:9: undefined: x\n".data =
      "goscript:2:9: undefined: x".data := by
  decide

example :
    processOutput 1 "./goscript.go:20:1: boom\n".data = [] := by
  decide

/-- Go `error` values as the package produces and handles them:
`errors.New` messages, the package's `Error{Err, Stderr}` wrapper, and
opaque errors coming from the outside (I/O, exec, gob). -/
inductive GoError where
  | errmsg (s : GoStr)
  | harness (err : GoError) (stderr : GoStr)
  | external (tag : Nat)
deriving DecidableEq, Repr

/-- Opaque values travelling through the gob channel (`interface{}`). -/
inductive GoValue where
  | str (s : GoStr)
  | int (i : Int)
  | opaqueV (tag : Nat)
deriving DecidableEq, Repr

/-- A Go slice: `none` is the nil slice, `some l` a non-nil slice with
elements `l`. -/
abbrev GoSlice (α : Type) := Option (List α)

/-- Go `len` of a slice (nil has length 0). -/
def goSliceLen {α : Type} : GoSlice α → Nat
  | none => 0
  | some l => l.length

/-- Go `os.ProcessState` as the package consults it: whether the process
has exited and whether it exited successfully. -/
structure ProcState where
  exited : Bool
  success : Bool
deriving DecidableEq, Repr

/-- The response envelope `response{Value, Error}`. -/
structure Response where
  Value : Option GoValue
  Error : Option GoError
deriving DecidableEq, Repr

/-- The observable external actions of the package, recorded as traces:
temp-dir and file creation, template execution, process start, the
handshake decode, draining stderr, waiting, the request encode and
response decode of a call, and the teardown steps of `Close`. -/
inductive Event where
  | tempDirE (dir : GoStr)
  | createFileE (path : GoStr)
  | templateExecE
  | startE
  | decodeStateE
  | readStderrE
  | waitE
  | encodeE (v : GoSlice GoValue)
  | decodeRespE
  | closeStdinE
  | killE
  | closeStdoutE
  | closeStderrE
  | removeE (path : GoStr)
deriving DecidableEq, Repr

/-- The `Script` struct, restricted to the state the embedded operations
observe: the sticky error, the generated file path, the entry-point line
number, and which handles exist (`cmd`, `cmd.Process`,
`cmd.ProcessState`, the three pipes). -/
structure Script where
  err : Option GoError
  scriptFile : GoStr
  scriptLines : Int
  cmdSet : Bool
  processSet : Bool
  procState : Option ProcState
  stdinSet : Bool
  stdoutSet : Bool
  stderrSet : Bool
deriving DecidableEq, Repr

/-- The zero `Script` that `New` starts from. -/
def Script.initial : Script :=
  { err := none, scriptFile := [], scriptLines := 0, cmdSet := false,
    processSet := false, procState := none, stdinSet := false,
    stdoutSet := false, stderrSet := false }

/-- Outcomes of the external effects `New` performs, fixed up front:
each fallible step either succeeds or fails with an opaque error, the
handshake decode yields a string or fails, stderr holds some text, and
`cmd.Wait` either succeeds or reports an exit error (in which case
`cmd.ProcessState` becomes `exitState`). -/
structure NewEnv where
  tempDir : Except GoError GoStr
  createFile : Except GoError Unit
  templateExec : Except GoError Unit
  fileClose : Except GoError Unit
  stdinPipe : Except GoError Unit
  stdoutPipe : Except GoError Unit
  stderrPipe : Except GoError Unit
  start : Except GoError Unit
  decodeState : Except GoError GoStr
  stderrContent : GoStr
  waitErr : Option GoError
  exitState : ProcState
deriving Repr

/-- The generation step `createScriptFile`: allocate a fresh temporary directory, create
`goscript.go` inside it, execute the harness template into it and close
it, returning the generated file's path.  (The template data the source
assembles — the snippet, descriptors and joined `Argname` list — only
shapes the written file's bytes, which have no observable effect in
this model; the file path Join uses a `/` separator.) -/
def createScriptFile (env : NewEnv) : List Event × Except GoError GoStr :=
  match env.tempDir with
  | .error e => ([], .error e)
  | .ok dir =>
    match env.createFile with
    | .error e => ([.tempDirE dir], .error e)
    | .ok _ =>
      let fname := dir ++ "/goscript.go".data
      match env.templateExec with
      | .error e => ([.tempDirE dir, .createFileE fname], .error e)
      | .ok _ =>
        match env.fileClose with
        | .error e => ([.tempDirE dir, .createFileE fname, .templateExecE], .error e)
        | .ok _ => ([.tempDirE dir, .createFileE fname, .templateExecE], .ok fname)

/-- The parse result of the harness template, computed once at package
init.  The template is a fixed valid `text/template`, so this is `nil`. -/
def scriptHarnessTemplateErr : Option GoError := none

/-- The constructor `New`: check the template parsed, run `processScript`, write the
generated file, wire the three pipes, start the process, and perform the
ready handshake; on handshake-decode failure drain stderr, remap it with
`processOutput`, wait for the process, and wrap a failed wait's error
with the remapped text.  Every failing step short-circuits, leaving its
error stored in the returned `Script`. -/
def NewGo (script : GoStr) (env : NewEnv) : List Event × Script :=
  let s := Script.initial
  match scriptHarnessTemplateErr with
  | some e => ([], { s with err := some e })
  | none =>
    match processScript script with
    | .error e => ([], { s with err := some (.errmsg e) })
    | .ok (n, _args) =>
      let s := { s with scriptLines := n }
      match createScriptFile env with
      | (tr, .error e) => (tr, { s with err := some e })
      | (tr, .ok fname) =>
        let s := { s with scriptFile := fname, cmdSet := true }
        match env.stdinPipe with
        | .error e => (tr, { s with err := some e })
        | .ok _ =>
          let s := { s with stdinSet := true }
          match env.stdoutPipe with
          | .error e => (tr, { s with err := some e })
          | .ok _ =>
            let s := { s with stdoutSet := true }
            match env.stderrPipe with
            | .error e => (tr, { s with err := some e })
            | .ok _ =>
              let s := { s with stderrSet := true }
              match env.start with
              | .error e => (tr, { s with err := some e })
              | .ok _ =>
                let s := { s with processSet := true }
                let tr := tr ++ [.startE, .decodeStateE]
                match env.decodeState with
                | .error _ =>
                  let output := processOutput s.scriptLines env.stderrContent
                  let tr := tr ++ [.readStderrE, .waitE]
                  let s := { s with procState := some env.exitState }
                  match env.waitErr with
                  | some w => (tr, { s with err := some (.harness w output) })
                  | none => (tr, { s with err := none })
                | .ok state =>
                  if state = "ready".data then (tr, s)
                  else (tr, { s with err := some (.errmsg "goscript failed to start".data) })

/-- Outcomes of the external effects of one `Execute` call: the request
encode, the response decode, the process state `cmdErr` observes, and
the stderr text it would drain. -/
structure ExecEnv where
  encodeRes : Option GoError
  decodeRes : Except GoError Response
  procStateNow : Option ProcState
  stderrContent : GoStr
deriving Repr

/-- The helper `Script.cmdErr`: when the child is known to have exited unsuccessfully,
report its drained stderr text as the error; otherwise return the
transport error unchanged. -/
def cmdErr (env : ExecEnv) (e : GoError) : GoError :=
  match env.procStateNow with
  | some ps =>
    if ps.exited then
      if ¬ ps.success then .errmsg env.stderrContent else e
    else e
  | none => e

/-- The call `Script.Execute`: return the sticky construction error if present;
otherwise replace a nil argument slice by an empty one, encode the
request, decode the response, and pass the envelope's value and error
through, routing transport failures through `cmdErr`. -/
def ExecuteGo (s : Script) (args : GoSlice GoValue) (env : ExecEnv) :
    List Event × Option GoValue × Option GoError :=
  match s.err with
  | some e => ([], none, some e)
  | none =>
    let args := if goSliceLen args = 0 then some [] else args
    match env.encodeRes with
    | some e => ([.encodeE args], none, some (cmdErr env e))
    | none =>
      match env.decodeRes with
      | .error e => ([.encodeE args, .decodeRespE], none, some (cmdErr env e))
      | .ok res => ([.encodeE args, .decodeRespE], res.Value, res.Error)

/-- The test `cmd.ProcessState == nil || !cmd.ProcessState.Exited()`: the process
has not been observed to exit. -/
def procNotExited : Option ProcState → Bool
  | none => true
  | some ps => !ps.exited

/-- The teardown `Script.Close`: close stdin when present, kill the process when it
was started and has not been observed to exit, close stdout and stderr
when present, and finally (the deferred step) remove the generated
script file.  All failures are swallowed; the returned error is `nil`. -/
def CloseGo (s : Script) : List Event × Option GoError :=
  let tr := if s.stdinSet then [Event.closeStdinE] else []
  let tr := tr ++
    (if s.cmdSet && s.processSet && procNotExited s.procState
      then [Event.killE] else [])
  let tr := tr ++ (if s.stdoutSet then [Event.closeStdoutE] else [])
  let tr := tr ++ (if s.stderrSet then [Event.closeStderrE] else [])
  (tr ++ [Event.removeE s.scriptFile], none)

/-- A concrete snippet with a valid entry point, for instantiating
theorems with hypotheses. -/
def scGood : GoStr :=
  "func goscript() (string, error)".data

/-- A construction environment in which every external step succeeds and
the handshake yields the ready token. -/
def envAllOk : NewEnv :=
  { tempDir := .ok "/tmp/goscript1".data
    createFile := .ok ()
    templateExec := .ok ()
    fileClose := .ok ()
    stdinPipe := .ok ()
    stdoutPipe := .ok ()
    stderrPipe := .ok ()
    start := .ok ()
    decodeState := .ok "ready".data
    stderrContent := []
    waitErr := none
    exitState := ⟨true, true⟩ }

/-- The ready instance built from `scGood` under `envAllOk`. -/
def sReady : Script :=
  (NewGo scGood envAllOk).2

/-- A call environment in which the round trip succeeds. -/
def execEnvOk : ExecEnv :=
  { encodeRes := none
    decodeRes := .ok ⟨some (.str "hi".data), none⟩
    procStateNow := none
    stderrContent := [] }

example : sReady.err = none := by decide

/-- C1: on the declaration line
`func goscript(one, two, three string, age int) (interface{}, error)`
the signature extractor returns exactly four descriptors, in order
`("one","string")`, `("two","string")`, `("three","string")`,
`("age","int")`: the trailing `string` of the third segment is
back-filled across the untyped run `one, two`, and `int` stays with
`age` alone since `three` is already typed. -/
theorem extractArguments_type_backfill :
    extractArguments
        "func goscript(one, two, three string, age int) (interface\x7b\x7d, error)".data =
      [⟨0, "one".data, "string".data⟩, ⟨1, "two".data, "string".data⟩,
       ⟨2, "three".data, "string".data⟩, ⟨3, "age".data, "int".data⟩] := by
  decide

/-- C7: on the declaration line `func goscript(items ...string)` the
signature extractor yields exactly one descriptor, flagged variadic,
with element type `string` and externally-visible type `[]string`. -/
theorem extractArguments_variadic_descriptor :
    extractArguments "func goscript(items ...string)".data =
        [⟨0, "items".data, "...string".data⟩] ∧
      arg.Variadic ⟨0, "items".data, "...string".data⟩ = true ∧
      arg.TypenameSingular ⟨0, "items".data, "...string".data⟩ = "string".data ∧
      arg.Typename ⟨0, "items".data, "...string".data⟩ = "[]string".data := by
  decide

/-- C10: a zero-argument `Execute` on a ready instance encodes the empty
non-nil slice `some []` as its request envelope (the nil slice `none` is
replaced before encoding), so its first external action is always
`encodeE (some [])`. -/
theorem execute_zero_args_encodes_empty (s : Script) (env : ExecEnv)
    (h : s.err = none) :
    (ExecuteGo s none env).1.head? = some (.encodeE (some [])) := by
  unfold ExecuteGo
  rw [h]
  simp only [goSliceLen]
  cases env.encodeRes <;> [skip; rfl]
  cases env.decodeRes <;> rfl

/-- Witness for C10 at the concrete ready instance. -/
theorem execute_zero_args_encodes_empty_witness :
    sReady.err = none ∧
      (ExecuteGo sReady none execEnvOk).1.head? = some (.encodeE (some [])) :=
  ⟨by decide, execute_zero_args_encodes_empty sReady execEnvOk (by decide)⟩

/-- The child has been observed to exit with a non-zero status. -/
def exitedNonZero : Option ProcState → Bool
  | some ps => ps.exited && !ps.success
  | none => false

/-- C8: when the request encode or the response decode of `Execute`
fails with transport error `e`, the call returns the drained stderr text
as its error exactly when the child is known to have exited non-zero,
and the raw `e` in every other case. -/
theorem execute_transport_error_routing (s : Script) (args : GoSlice GoValue)
    (env : ExecEnv) (e : GoError) (hs : s.err = none)
    (hfail : env.encodeRes = some e ∨
      (env.encodeRes = none ∧ env.decodeRes = .error e)) :
    (ExecuteGo s args env).2.2 =
      some (if exitedNonZero env.procStateNow then .errmsg env.stderrContent
            else e) := by
  have hcmd : cmdErr env e =
      if exitedNonZero env.procStateNow then .errmsg env.stderrContent else e := by
    unfold cmdErr exitedNonZero
    cases hps : env.procStateNow with
    | none => rfl
    | some ps =>
      cases hex : ps.exited <;> cases hsc : ps.success <;> simp [hex, hsc]
  unfold ExecuteGo
  rw [hs]
  rcases hfail with henc | ⟨henc, hdec⟩
  · rw [henc]; simpa using hcmd
  · rw [henc, hdec]; simpa using hcmd

/-- Witness for C8: a concrete failing encode against a child that
exited non-zero returns the diagnostic text. -/
theorem execute_transport_error_routing_witness :
    (ExecuteGo sReady (some [])
        { encodeRes := some (.external 0)
          decodeRes := .ok ⟨none, none⟩
          procStateNow := some ⟨true, false⟩
          stderrContent := "exit status 2".data }).2.2 =
      some (.errmsg "exit status 2".data) := by
  have h := execute_transport_error_routing sReady (some [])
    { encodeRes := some (.external 0)
      decodeRes := .ok ⟨none, none⟩
      procStateNow := some ⟨true, false⟩
      stderrContent := "exit status 2".data }
    (.external 0) (by decide) (Or.inl rfl)
  simpa using h

lemma processScriptLoop_of_no_match (ls : List GoStr) :
    ∀ n : Int, (∀ l ∈ ls, "func goscript(".data.isPrefixOf (trimSpace l) = false) →
      processScriptLoop n ls = .error "missing func goscript".data := by
  induction ls with
  | nil => intro n _; rfl
  | cons l rest ih =>
    intro n h
    have hl := h l (List.mem_cons_self _ _)
    simp only [processScriptLoop, hl]
    exact ih (n + 1) fun x hx => h x (List.mem_cons_of_mem _ hx)

/-- C2: when no line of the snippet, after trimming, begins with
`func goscript(`, construction stops with the missing-entry-point error
before any external action (its trace is empty: no temp dir, no
generated file, no template execution, no process start), and every
`Execute` on the resulting instance returns that same stored error with
an empty trace (no encode, no decode). -/
theorem new_missing_entry_point (script : GoStr) (env : NewEnv)
    (args : GoSlice GoValue) (eenv : ExecEnv)
    (h : ∀ l ∈ goScanLines script,
      "func goscript(".data.isPrefixOf (trimSpace l) = false) :
    NewGo script env =
      ([], { Script.initial with err := some (.errmsg "missing func goscript".data) }) ∧
    ExecuteGo (NewGo script env).2 args eenv =
      ([], none, some (.errmsg "missing func goscript".data)) := by
  have hp : processScript script = .error "missing func goscript".data :=
    processScriptLoop_of_no_match (goScanLines script) 0 h
  have hnew : NewGo script env =
      ([], { Script.initial with err := some (.errmsg "missing func goscript".data) }) := by
    unfold NewGo scriptHarnessTemplateErr
    rw [hp]
  exact ⟨hnew, by rw [hnew]; rfl⟩

/-- Witness for C2 on a snippet with no entry point. -/
theorem new_missing_entry_point_witness :
    NewGo "package main\nfunc other() \x7b\x7d\n".data envAllOk =
      ([], { Script.initial with err := some (.errmsg "missing func goscript".data) }) ∧
    ExecuteGo (NewGo "package main\nfunc other() \x7b\x7d\n".data envAllOk).2 none execEnvOk =
      ([], none, some (.errmsg "missing func goscript".data)) :=
  new_missing_entry_point "package main\nfunc other() \x7b\x7d\n".data envAllOk
    none execEnvOk (by decide)

lemma processScriptLoop_le (ls : List GoStr) :
    ∀ (n m : Int) (args : List arg),
      processScriptLoop n ls = .ok (m, args) → m ≤ n + ls.length := by
  induction ls with
  | nil => intro n m args h; simp [processScriptLoop] at h
  | cons l rest ih =>
    intro n m args h
    simp only [processScriptLoop] at h
    split at h
    · simp only [Except.ok.injEq, Prod.mk.injEq] at h
      obtain ⟨h1, -⟩ := h
      simp only [List.length_cons]
      omega
    · have := ih (n + 1) m args h
      simp only [List.length_cons]
      omega

lemma processScript_line_le (script : GoStr) (n : Int) (args : List arg)
    (h : processScript script = .ok (n, args)) :
    n ≤ (goScanLines script).length :=
  by simpa using processScriptLoop_le (goScanLines script) 0 n args h

/-- C3: a diagnostic line that references `goscript.go:` with an
embedded number `m` such that the adjusted number `m - scriptStartLine`
exceeds the snippet's own line count is mapped to `none` by the per-line
remapper (so it contributes nothing to `processOutput`, which is the
newline-join of the per-line images of the diagnostic's lines).  This
holds because the `scriptLines` value the instance passes to the
remapper — the entry-point declaration's line number — never exceeds the
snippet's line count. -/
theorem remap_drops_lines_beyond_snippet (script out : GoStr) (n : Int)
    (args : List arg) (l : GoStr) (m : Int)
    (hok : processScript script = .ok (n, args))
    (hcont : containsStr "goscript.go:".data l = true)
    (hm : goAtoi (((splitChar ':' l).set 0 "goscript".data).getD 1 []) = some m)
    (hgt : (goScanLines script).length < m - scriptStartLine) :
    remapLine n l = none ∧
    processOutput n out =
      joinStr "\n".data ((goScanLines out).filterMap (remapLine n)) := by
  refine ⟨?_, rfl⟩
  have hle : n ≤ (goScanLines script).length := processScript_line_le script n args hok
  have hlt : n < m - scriptStartLine := by omega
  unfold remapLine
  split
  · rfl
  · simp only [hm, gt_iff_lt, hlt, if_true]

/-- Witness for C3: a one-line snippet and a diagnostic on generated
scaffolding (template line 20, adjusted to 8 > 1). -/
theorem remap_drops_lines_beyond_snippet_witness :
    remapLine 1 "goscript.go:20:1: boom".data = none ∧
    processOutput 1 "goscript.go:20:1: boom".data =
      joinStr "\n".data
        ((goScanLines "goscript.go:20:1: boom".data).filterMap (remapLine 1)) := by
  have h := remap_drops_lines_beyond_snippet scGood "goscript.go:20:1: boom".data
    1 [] "goscript.go:20:1: boom".data 20 rfl (by decide) (by decide) (by decide)
  exact h

/-- The Diagnostic Remapper's per-line behaviour as the specification
sentence describes it (for comparison with the code's `remapLine`): a
line equal after trimming to the boilerplate marker is dropped; a line
containing the generated filename *with an embedded line number* has the
filename rewritten to the placeholder and the number reduced by the
template offset; all other surviving lines pass through unchanged. -/
def specRemapLine (line : GoStr) : Option GoStr :=
  if trimSpace line = "# command-line-arguments".data then none
  else if containsStr "goscript.go:".data line then
    match goAtoi (((splitChar ':' line)).getD 1 []) with
    | some n =>
      some (joinStr ":".data
        (((splitChar ':' line).set 0 "goscript".data).set 1
          (goItoa (n - scriptStartLine))))
    | none => some line
  else some line

/-- The whole-text Diagnostic Remapper as the specification sentence
describes it: surviving per-line images reassembled in original order. -/
def specProcessOutput (out : GoStr) : GoStr :=
  joinStr "\n".data ((goScanLines out).filterMap specRemapLine)

/-- Counterexample to C4 as stated: on the diagnostic text
`goscript.go:20:1: boom` + `goscript.go:zzz: huh` with one snippet line,
the code drops the first line (adjusted number 8 exceeds 1) and rewrites
the filename of the second even though no number parses, while the
claim's reference definition keeps an adjusted first line and passes the
second through unchanged. -/
theorem processOutput_spec_counterexample :
    processOutput 1 "goscript.go:20:1: boom\ngoscript.go:zzz: huh".data ≠
      specProcessOutput "goscript.go:20:1: boom\ngoscript.go:zzz: huh".data := by
  decide

/-- The corrected reference definition (amended C4): a marker line is
dropped; a line containing the generated filename always has the text
before its first colon rewritten to the placeholder; when its second
colon-field parses as a number, the number is reduced by the template
offset and the whole line is dropped when the adjusted number exceeds
the snippet-lines parameter; everything else passes through unchanged. -/
def specRemapLineFix (scriptLines : Int) (line : GoStr) : Option GoStr :=
  if trimSpace line = "# command-line-arguments".data then none
  else if containsStr "goscript.go:".data line then
    match goAtoi ((splitChar ':' line).getD 1 []) with
    | some n =>
      if scriptLines < n - scriptStartLine then none
      else
        some (joinStr ":".data
          (((splitChar ':' line).set 0 "goscript".data).set 1
            (goItoa (n - scriptStartLine))))
    | none => some (joinStr ":".data ((splitChar ':' line).set 0 "goscript".data))
  else some line

lemma getD_one_set_zero (l : List GoStr) (x : GoStr) :
    (l.set 0 x).getD 1 [] = l.getD 1 [] := by
  match l with
  | [] => rfl
  | [_] => rfl
  | _ :: _ :: _ => rfl

/-- C4 (amended): the code's Diagnostic Remapper coincides with the
corrected reference definition on every input: per-line images agree,
and `processOutput` is their newline-join in original order. -/
theorem processOutput_eq_spec_fixed (scriptLines : Int) (out : GoStr) :
    processOutput scriptLines out =
      joinStr "\n".data
        ((goScanLines out).filterMap (specRemapLineFix scriptLines)) := by
  unfold processOutput
  congr 1
  apply List.filterMap_congr
  intro l _
  unfold remapLine specRemapLineFix
  simp only [getD_one_set_zero, gt_iff_lt]

/-- All construction steps before the handshake succeed. -/
def NewEnv.preOk (env : NewEnv) : Prop :=
  (∃ d, env.tempDir = .ok d) ∧ env.createFile = .ok () ∧
    env.templateExec = .ok () ∧ env.fileClose = .ok () ∧
    env.stdinPipe = .ok () ∧ env.stdoutPipe = .ok () ∧
    env.stderrPipe = .ok () ∧ env.start = .ok ()

/-- A construction environment whose handshake decode fails while the
process nevertheless exits cleanly (`Wait` returns `nil`). -/
def envHsWaitNil : NewEnv :=
  { envAllOk with
    decodeState := .error (.external 0)
    stderrContent := "some noise".data
    waitErr := none
    exitState := ⟨true, true⟩ }

/-- Counterexample to C5 as stated: with the handshake decode failing
but `Wait` reporting no error, the remapped stderr text is *not*
recorded — the instance ends with a `nil` construction error (it is not
in the failed state), because the code stores the diagnostic only inside
the `Wait`-error branch. -/
theorem new_handshake_no_wait_error_counterexample :
    envHsWaitNil.decodeState = .error (.external 0) ∧
      (NewGo scGood envHsWaitNil).2.err = none :=
  ⟨rfl, rfl⟩

/-- C5 (amended): when the pre-handshake steps succeed and decoding the
ready token fails, construction drains the error stream, remaps it with
`processOutput`, and waits for the process; if the wait reports an error
`w`, the construction error becomes `Error{Err: w, Stderr: remapped}`,
and if the wait reports no error the construction error is left `nil`. -/
theorem new_handshake_failure (script : GoStr) (env : NewEnv) (n : Int)
    (args : List arg) (e : GoError)
    (hps : processScript script = .ok (n, args))
    (hpre : env.preOk)
    (hdec : env.decodeState = .error e) :
    Event.readStderrE ∈ (NewGo script env).1 ∧
    Event.waitE ∈ (NewGo script env).1 ∧
    (NewGo script env).2.err =
      env.waitErr.map
        (fun w => .harness w (processOutput n env.stderrContent)) := by
  obtain ⟨⟨d, htd⟩, hcf, hte, hfc, hsi, hso, hse, hst⟩ := hpre
  unfold NewGo scriptHarnessTemplateErr createScriptFile
  rw [hps, htd, hcf, hte, hfc, hsi, hso, hse, hst, hdec]
  cases env.waitErr <;> simp

/-- Witness for C5 (amended), in the wait-fails case: the remapped
stderr is recorded inside the `Error` wrapper. -/
theorem new_handshake_failure_witness :
    Event.readStderrE ∈
        (NewGo scGood { envHsWaitNil with waitErr := some (.external 1) }).1 ∧
    Event.waitE ∈
        (NewGo scGood { envHsWaitNil with waitErr := some (.external 1) }).1 ∧
    (NewGo scGood { envHsWaitNil with waitErr := some (.external 1) }).2.err =
      some (.harness (.external 1) (processOutput 1 "some noise".data)) := by
  have h := new_handshake_failure scGood
    { envHsWaitNil with waitErr := some (.external 1) } 1 [] (.external 0)
    rfl ⟨⟨"/tmp/goscript1".data, rfl⟩, rfl, rfl, rfl, rfl, rfl, rfl, rfl⟩ rfl
  exact ⟨h.1, h.2.1, h.2.2⟩

/-- Counterexample to C6 as stated: closing the concretely constructed
ready instance removes the generated source file but never attempts to
remove the instance's private temporary directory `/tmp/goscript1`. -/
theorem close_no_dir_removal_counterexample :
    Event.removeE ("/tmp/goscript1/goscript.go".data) ∈ (CloseGo sReady).1 ∧
      Event.removeE ("/tmp/goscript1".data) ∉ (CloseGo sReady).1 := by
  decide

/-- C6 (amended): for every instance state — ready, failed, or already
closed — `Close` returns no error and attempts every cleanup step that
has something to act on: the request stream is closed first when it
exists, the process is killed when it was started and has not been
observed to exit, both output streams are closed when they exist, and
the deferred deletion of the generated source file (not of its
containing directory) always runs last.  `Close` reads but never writes
the instance state, so repeated calls behave identically. -/
theorem close_best_effort (s : Script) :
    (CloseGo s).2 = none ∧
    (CloseGo s).1.getLast? = some (.removeE s.scriptFile) ∧
    (s.stdinSet = true → (CloseGo s).1.head? = some .closeStdinE) ∧
    (s.cmdSet = true → s.processSet = true → procNotExited s.procState = true →
      Event.killE ∈ (CloseGo s).1) ∧
    (s.stdoutSet = true → Event.closeStdoutE ∈ (CloseGo s).1) ∧
    (s.stderrSet = true → Event.closeStderrE ∈ (CloseGo s).1) := by
  unfold CloseGo
  refine ⟨rfl, ?_, ?_, ?_, ?_, ?_⟩
  · simp
  · intro h1; simp [h1]
  · intro h1 h2 h3; simp [h1, h2, h3]
  · intro h1; simp [h1]
  · intro h1; simp [h1]

/-- Witness for C6 (amended) at the concrete ready instance. -/
theorem close_best_effort_witness :
    (CloseGo sReady).2 = none ∧
    (CloseGo sReady).1.getLast? =
      some (.removeE ("/tmp/goscript1/goscript.go".data)) ∧
    (CloseGo sReady).1.head? = some .closeStdinE ∧
    Event.killE ∈ (CloseGo sReady).1 ∧
    Event.closeStdoutE ∈ (CloseGo sReady).1 ∧
    Event.closeStderrE ∈ (CloseGo sReady).1 := by
  obtain ⟨h1, h2, h3, h4, h5, h6⟩ := close_best_effort sReady
  refine ⟨h1, ?_, h3 (by decide), h4 (by decide) (by decide) (by decide),
    h5 (by decide), h6 (by decide)⟩
  have hf : sReady.scriptFile = "/tmp/goscript1/goscript.go".data := by decide
  rw [← hf]
  exact h2

/-- A declared type carries the variadic marker. -/
def marked (t : GoStr) : Bool :=
  "...".data.isPrefixOf t

/-- The comma-segments of a declaration line, exactly as
`extractArguments` computes them. -/
def commaSegs (code : GoStr) : List GoStr :=
  splitChar ',' ((splitChar ')' ((splitChar '(' code).getD 1 [])).getD 0 [])

/-- The declared type of the final comma-segment (empty for no
segments). -/
def lastSegTyp (segs : List GoStr) : GoStr :=
  match segs.getLast? with
  | some l => segTyp l
  | none => []

lemma variadic_eq_marked (a : arg) : a.Variadic = marked a.Typ := rfl

lemma extractArguments_eq_loop (code : GoStr) :
    extractArguments code =
      if (commaSegs code).getD 0 [] = [] then []
      else extractLoop 0 (commaSegs code) [] := rfl

lemma extractLoop_cons (i : Int) (seg : GoStr) (rest : List GoStr)
    (acc : List arg) :
    extractLoop i (seg :: rest) acc =
      extractLoop (i + 1) rest
        ((if 1 < (splitChar ' ' (trimSpace seg)).length
          then backfill (segTyp seg) acc else acc) ++
          [⟨i, segName seg, segTyp seg⟩]) := rfl

lemma splitChar_ne_nil (sep : Char) (s : GoStr) : splitChar sep s ≠ [] := by
  cases s with
  | nil => simp [splitChar]
  | cons c r =>
    simp only [splitChar]
    split
    · simp
    · split <;> simp

lemma typ_mem_backfill (t : GoStr) (l : List arg) (a' : arg)
    (h : a' ∈ backfill t l) : a'.Typ = t ∨ ∃ a ∈ l, a'.Typ = a.Typ := by
  induction l with
  | nil => simp [backfill] at h
  | cons a rest ih =>
    simp only [backfill] at h
    split at h
    · rcases List.mem_cons.mp h with h1 | h1
      · left; rw [h1]
      · rcases ih h1 with h2 | ⟨b, hb, h2⟩
        · exact Or.inl h2
        · exact Or.inr ⟨b, List.mem_cons_of_mem _ hb, h2⟩
    · rcases List.mem_cons.mp h with h1 | h1
      · exact Or.inr ⟨a, List.mem_cons_self _ _, by rw [h1]⟩
      · rcases ih h1 with h2 | ⟨b, hb, h2⟩
        · exact Or.inl h2
        · exact Or.inr ⟨b, List.mem_cons_of_mem _ hb, h2⟩

lemma extractLoop_all_unmarked (rest : List GoStr) :
    ∀ (i : Int) (acc : List arg),
      (∀ seg ∈ rest, marked (segTyp seg) = false) →
      (∀ a ∈ acc, marked a.Typ = false) →
      ∀ a ∈ extractLoop i rest acc, marked a.Typ = false := by
  induction rest with
  | nil => intro i acc _ hacc a ha; exact hacc a ha
  | cons seg rest ih =>
    intro i acc hseg hacc a ha
    rw [extractLoop_cons] at ha
    refine ih (i + 1) _ (fun x hx => hseg x (List.mem_cons_of_mem _ hx)) ?_ a ha
    intro b hb
    rcases List.mem_append.mp hb with hb1 | hb1
    · split at hb1
      · rcases typ_mem_backfill _ _ _ hb1 with h2 | ⟨c, hc, h2⟩
        · rw [h2]; exact hseg seg (List.mem_cons_self _ _)
        · rw [h2]; exact hacc c hc
      · exact hacc b hb1
    · have : b = ⟨i, segName seg, segTyp seg⟩ := by
        simpa using hb1
      rw [this]
      exact hseg seg (List.mem_cons_self _ _)

lemma extractLoop_singleton (i : Int) (seg : GoStr) (acc : List arg) :
    extractLoop i [seg] acc =
      (if 1 < (splitChar ' ' (trimSpace seg)).length
        then backfill (segTyp seg) acc else acc) ++
        [⟨i, segName seg, segTyp seg⟩] := rfl

lemma extractLoop_append (l1 l2 : List GoStr) :
    ∀ (i : Int) (acc : List arg),
      extractLoop i (l1 ++ l2) acc =
        extractLoop (i + l1.length) l2 (extractLoop i l1 acc) := by
  induction l1 with
  | nil => intro i acc; simp [extractLoop]
  | cons s l1 ih =>
    intro i acc
    have hidx : i + ((s :: l1).length : Int) = (i + 1) + (l1.length : Int) := by
      simp only [List.length_cons]
      push_cast
      ring
    rw [List.cons_append, extractLoop_cons, ih, hidx, extractLoop_cons]

lemma extractLoop_getLast_typ (rest : List GoStr) :
    ∀ (i : Int) (acc : List arg) (s : GoStr),
      rest.getLast? = some s →
      ((extractLoop i rest acc).getLast?).map arg.Typ = some (segTyp s) := by
  induction rest with
  | nil => intro i acc s h; simp at h
  | cons t rest ih =>
    intro i acc s h
    cases rest with
    | nil =>
      simp only [List.getLast?_singleton, Option.some.injEq] at h
      subst h
      rw [extractLoop_singleton, List.getLast?_concat]
      rfl
    | cons u v =>
      rw [List.getLast?_cons_cons] at h
      rw [extractLoop_cons]
      exact ih (i + 1) _ s h

lemma backfill_of_getLast_typed (t : GoStr) (b : arg) (hbt : b.Typ ≠ []) :
    ∀ l : List arg, l.getLast? = some b → backfill t l = l := by
  intro l
  induction l with
  | nil => intro hb; simp at hb
  | cons a rest ih =>
    intro hb
    cases rest with
    | nil =>
      simp only [List.getLast?_singleton, Option.some.injEq] at hb
      subst hb
      show (if a.Typ = [] ∧ (([] : List arg).all fun x => decide (x.Typ = [])) = true
          then { a with Typ := t } :: backfill t [] else a :: backfill t []) = [a]
      rw [if_neg fun hc => hbt hc.1]
      rfl
    | cons u v =>
      rw [List.getLast?_cons_cons] at hb
      have hmem : b ∈ u :: v := by
        have hne : (u :: v) ≠ [] := List.cons_ne_nil _ _
        have hb2 := hb
        rw [List.getLast?_eq_getLast _ hne, Option.some.injEq] at hb2
        rw [← hb2]
        exact List.getLast_mem hne
      have hall : ((u :: v).all fun x => decide (x.Typ = [])) = false := by
        refine Bool.of_not_eq_true fun hA => hbt ?_
        exact of_decide_eq_true (List.all_eq_true.mp hA b hmem)
      have hcond : ¬(a.Typ = [] ∧
          ((u :: v).all fun x => decide (x.Typ = [])) = true) := by
        simp [hall]
      show (if a.Typ = [] ∧ ((u :: v).all fun x => decide (x.Typ = [])) = true
          then { a with Typ := t } :: backfill t (u :: v)
          else a :: backfill t (u :: v)) = a :: u :: v
      rw [if_neg hcond, ih hb]

lemma filter_variadic_le_one (out : List arg)
    (h : ∀ a ∈ out.dropLast, a.Variadic = false) :
    (out.filter (fun a => a.Variadic)).length ≤ 1 := by
  rcases List.eq_nil_or_concat out with rfl | ⟨front, last, rfl⟩
  · simp
  · rw [List.concat_eq_append] at h ⊢
    rw [List.filter_append]
    have hf : front.filter (fun a => a.Variadic) = [] := by
      rw [List.filter_eq_nil_iff]
      intro a ha
      simp [h a (by rwa [List.dropLast_concat])]
    rw [hf, List.nil_append]
    cases hl : (fun a => a.Variadic) last <;> simp [List.filter, hl]

/-- Counterexample to C9 as stated: on the (not-valid-Go) declaration
line `func goscript(a ...int, b string)` the extractor produces a list
whose *first* descriptor is variadic and whose last is not — a variadic
descriptor is present but is not the last one. -/
theorem extract_variadic_not_last_counterexample :
    extractArguments "func goscript(a ...int, b string)".data =
        [⟨0, "a".data, "...int".data⟩, ⟨1, "b".data, "string".data⟩] ∧
      arg.Variadic ⟨0, "a".data, "...int".data⟩ = true ∧
      arg.Variadic ⟨1, "b".data, "string".data⟩ = false := by
  decide

/-- C9 (amended): for declaration lines that are well-formed in Go's
sense — no comma-segment before the last declares a variadic-marked
type, and when the last segment is variadic-marked the segment
immediately before it (when one exists) declares its own type (Go
forbids sharing a variadic type leftward across an untyped segment) —
every descriptor before the last is non-variadic, and at most one
descriptor of the whole output is variadic.  Go-valid type grouping
before the variadic parameter, as in `a, b string, c ...int`, is
covered: the back-fill of the final variadic type stops at the typed
descriptor immediately before it. -/
theorem extract_variadic_at_most_one_last (code : GoStr)
    (h1 : ∀ seg ∈ (commaSegs code).dropLast, marked (segTyp seg) = false)
    (h2 : marked (lastSegTyp (commaSegs code)) = true →
      (commaSegs code).dropLast ≠ [] →
      lastSegTyp ((commaSegs code).dropLast) ≠ []) :
    (∀ a ∈ (extractArguments code).dropLast, a.Variadic = false) ∧
    ((extractArguments code).filter (fun a => a.Variadic)).length ≤ 1 := by
  suffices hdl : ∀ a ∈ (extractArguments code).dropLast, a.Variadic = false from
    ⟨hdl, filter_variadic_le_one _ hdl⟩
  rw [extractArguments_eq_loop]
  by_cases hz : (commaSegs code).getD 0 [] = []
  · rw [if_pos hz]
    simp
  · rw [if_neg hz]
    have hne : commaSegs code ≠ [] := splitChar_ne_nil ',' _
    have hsplit := List.dropLast_append_getLast hne
    have hlastT : lastSegTyp (commaSegs code) =
        segTyp ((commaSegs code).getLast hne) := by
      unfold lastSegTyp
      rw [List.getLast?_eq_getLast _ hne]
    by_cases hmk : marked (lastSegTyp (commaSegs code)) = true
    · -- variadic-marked last segment: it is processed last, and its
      -- back-fill is the identity because the descriptor built for the
      -- immediately preceding segment already carries that segment's
      -- own (nonempty) declared type
      have hrw : (extractLoop 0 (commaSegs code) []).dropLast =
          extractLoop 0 ((commaSegs code).dropLast) [] := by
        conv_lhs => rw [← hsplit]
        rw [extractLoop_append, extractLoop_singleton, List.dropLast_concat]
        split
        · rcases eq_or_ne ((commaSegs code).dropLast) [] with hf | hf
          · rw [hf]
            rfl
          · have hgl : ((commaSegs code).dropLast).getLast? =
                some (((commaSegs code).dropLast).getLast hf) :=
              List.getLast?_eq_getLast _ hf
            have hty : segTyp (((commaSegs code).dropLast).getLast hf) ≠ [] := by
              have h2x := h2 hmk hf
              unfold lastSegTyp at h2x
              rwa [hgl] at h2x
            have hacc := extractLoop_getLast_typ ((commaSegs code).dropLast)
              0 [] _ hgl
            cases hql : (extractLoop 0 ((commaSegs code).dropLast) []).getLast? with
            | none =>
              rw [hql] at hacc
              simp at hacc
            | some b =>
              rw [hql] at hacc
              simp only [Option.map_some', Option.some.injEq] at hacc
              exact backfill_of_getLast_typed _ b (hacc ▸ hty) _ hql
        · rfl
      intro a ha
      rw [variadic_eq_marked]
      rw [hrw] at ha
      exact extractLoop_all_unmarked _ 0 [] h1 (by simp) a ha
    · -- no variadic marker anywhere: no descriptor is variadic at all
      have hall : ∀ seg ∈ commaSegs code, marked (segTyp seg) = false := by
        intro seg hs
        rw [← hsplit] at hs
        rcases List.mem_append.mp hs with h | h
        · exact h1 seg h
        · have : seg = (commaSegs code).getLast hne := by simpa using h
          rw [this]
          rw [hlastT] at hmk
          exact Bool.not_eq_true _ ▸ Bool.of_not_eq_true hmk
      intro a ha
      rw [variadic_eq_marked]
      exact extractLoop_all_unmarked _ 0 [] hall (by simp) a
        ((List.dropLast_sublist _).subset ha)

/-- Witness for C9 (amended) on the valid declaration line
`func goscript(a, b string, c ...int)`, whose untyped first segment
shares the type of the second while the last is variadic. -/
theorem extract_variadic_at_most_one_last_witness :
    (∀ a ∈ (extractArguments "func goscript(a, b string, c ...int)".data).dropLast,
        a.Variadic = false) ∧
    ((extractArguments "func goscript(a, b string, c ...int)".data).filter
        (fun a => a.Variadic)).length ≤ 1 :=
  extract_variadic_at_most_one_last
    "func goscript(a, b string, c ...int)".data
    (by decide) (by decide)
